import Mathlib

/-!
Verification of the firmware-update engine (`src/lib/coresys/manager_firmware.py`
and `src/boot.py`) against its natural-language specification.

The Python code is shallowly embedded: pure helpers become Lean functions,
the stateful update protocol becomes explicit state passing over an abstract
filesystem tree, and fallible operations return flags/Option values mirroring
the source's `return False` / `self.error` convention.
-/

set_option maxRecDepth 10000

namespace Firmware

/-! ### Python integer parsing and semantic-version comparison

`FirmwareUpdater._parse_semver` does `major, minor, patch = map(int, version.split("."))`
and raises `ValueError` on any failure (wrong component count or a component
that `int()` rejects).  `int()` is modelled as: strip surrounding whitespace,
optional single sign, then one or more decimal digits. -/

/-- Numeric value of a list of decimal digit characters. -/
def digitsVal (cs : List Char) : Nat :=
  cs.foldl (fun a c => a * 10 + (c.toNat - 48)) 0

/-- Strip leading and trailing whitespace from a character list
(Python `str.strip()` / the whitespace stripping done by `int()`). -/
def trimChars (cs : List Char) : List Char :=
  ((cs.dropWhile Char.isWhitespace).reverse.dropWhile Char.isWhitespace).reverse

/-- Model of Python `int(s)` on a character list: strip surrounding
whitespace, allow one optional sign, then require a nonempty digit run. -/
def pyIntOfChars (s : List Char) : Option Int :=
  match trimChars s with
  | [] => none
  | c :: rest =>
    if c = '-' then
      if !rest.isEmpty && rest.all Char.isDigit then some (-(digitsVal rest : Int)) else none
    else if c = '+' then
      if !rest.isEmpty && rest.all Char.isDigit then some ((digitsVal rest : Int)) else none
    else
      if (c :: rest).all Char.isDigit then some ((digitsVal (c :: rest) : Int)) else none

/-- Model of Python `int(s)` on a string. -/
def parsePyInt (s : String) : Option Int :=
  pyIntOfChars s.toList

/-- Python `s.split(sep)` for a one-character separator, on character lists
(so `""` gives `[""]`, and consecutive separators give empty components,
exactly like Python's `str.split` with an explicit separator). -/
def splitOnChar (sep : Char) : List Char → List (List Char)
  | [] => [[]]
  | c :: rest =>
    let r := splitOnChar sep rest
    if c = sep then [] :: r
    else
      match r with
      | h :: t => (c :: h) :: t
      | [] => [[c]]

/-- Model of `FirmwareUpdater._parse_semver`: split on "." into exactly three
`int()`-parsable components, else `ValueError` (modelled as `none`). -/
def parseSemver (v : String) : Option (Int × Int × Int) :=
  match splitOnChar '.' v.toList with
  | [a, b, c] =>
    match pyIntOfChars a, pyIntOfChars b, pyIntOfChars c with
    | some x, some y, some z => some (x, y, z)
    | _, _, _ => none
  | _ => none

/-- Decimal digit characters of `n`, least-significant first; `fuel ≥ 1`
suffices for `n < 10`, and `fuel ≥ n` always suffices. -/
def natDigitsRev (fuel n : Nat) : List Char :=
  match fuel with
  | 0 => []
  | fuel + 1 =>
    if n < 10 then [Char.ofNat (48 + n)]
    else Char.ofNat (48 + n % 10) :: natDigitsRev fuel (n / 10)

/-- Model of Python `str(i)` for an integer. -/
def intToDecString (i : Int) : String :=
  match i with
  | Int.ofNat n => String.mk (natDigitsRev (n + 1) n).reverse
  | Int.negSucc m => String.mk ('-' :: (natDigitsRev (m + 2) (m + 1)).reverse)

/-- Python tuple `<=` on integer triples (lexicographic). -/
def tupleLe (a b : Int × Int × Int) : Bool :=
  decide (a.1 < b.1) ||
    (decide (a.1 = b.1) &&
      (decide (a.2.1 < b.2.1) ||
        (decide (a.2.1 = b.2.1) && decide (a.2.2 ≤ b.2.2))))

/-- Model of `FirmwareUpdater._compare_versions`: parses both versions, returns `False`
when `latest_semver <= current_semver`, `True` otherwise; any parse failure is
caught and turned into `(False, error set)`.  The pair is (returned bool,
`self.error` after the call). -/
def compareVersions (current latest : String) : Bool × Option String :=
  match parseSemver current with
  | none => (false, some "Version comparison error")
  | some c =>
    match parseSemver latest with
    | none => (false, some "Version comparison error")
    | some l => (if tupleLe l c then false else true, none)

/-! ### Download progress (`percent_complete`) -/

/-- The transport counters of the updater that `percent_complete` reads. -/
structure DlState where
  downloadStarted : Bool
  totalSize : Nat
  bytesRead : Nat
deriving Repr, DecidableEq

/-- Model of `FirmwareUpdater.percent_complete`: returns 0 unless the download has
started and `total_size` is nonzero, else `int((bytes_read / total_size) * 100)`
(arithmetic modelled exactly; `/` is guarded by the `total_size == 0` test). -/
def percentComplete (s : DlState) : Nat :=
  if !s.downloadStarted || s.totalSize == 0 then 0
  else s.bytesRead * 100 / s.totalSize

/-! ### Singleton construction (`__new__` / `__init__` on an initialized instance) -/

/-- The configuration and state fields set by `FirmwareUpdater.__init__`.
The progress callback is abstracted to an opaque token (`Option Nat`). -/
structure FUState where
  deviceModel : String
  currentVersion : String
  error : Option String
  directBaseUrl : Option String
  githubRepo : Option String
  githubToken : String
  chunkSize : Nat
  maxRedirects : Nat
  coreSystemFiles : List String
  updateOnBoot : Bool
  maxFailureCount : Int
  progressCallback : Option Nat
  isDirectMode : Bool
  totalSize : Nat
  bytesRead : Nat
  downloadDone : Bool
  downloadStarted : Bool
  firmwareDownloadPath : String
  pendingUpdateVersion : Option String
  backupDir : String
  hashSums : List (String × String)
  updateFlagPath : String
  applyingFlagPath : String
deriving Repr, DecidableEq

/-- Model of `FirmwareUpdater.__new__`: returns the existing `_instance` when one is
set, otherwise the freshly allocated object. -/
def fuNew : Option FUState → FUState → FUState
  | some inst, _ => inst
  | none, fresh => fresh

/-- The `if self._initialized:` branch of `FirmwareUpdater.__init__`
(lines 28-31): update `progress_callback` when the argument is not `None`,
touch nothing else, and return. -/
def fuInitAgain (s : FUState) (progressCallback : Option Nat) : FUState :=
  match progressCallback with
  | some c => { s with progressCallback := some c }
  | none => s

/-! ### Retry accounting (`should_attempt_update` and the boot sequence) -/

/-- Model of `FirmwareUpdater._read_failure_counter`: the flag file's content parsed as
an integer; a missing file, empty content, or unparsable content gives 0.
`none` models an absent `update_flag` file.  `boot.py` lines 72-111 read the
counter with the same outcome (absent, empty, or non-integer content all
reset to 0). -/
def readFailureCounter (flag : Option String) : Int :=
  match flag with
  | none => 0
  | some content =>
    if (trimChars content.toList).isEmpty then 0
    else
      match pyIntOfChars content.toList with
      | some n => n
      | none => 0

/-- Model of `FirmwareUpdater.should_attempt_update`, as a transition on the state it
touches.  Input: the `update_on_boot` setting, `max_failure_attempts`, and the
`update_flag` file content (`none` = absent).  Output: (attempt?, new
`update_on_boot`, new `update_flag` content). -/
def shouldAttemptUpdate (updateOnBoot : Bool) (maxFailureCount : Int)
    (flag : Option String) : Bool × Bool × Option String :=
  if !updateOnBoot then (false, updateOnBoot, none)
  else
    let failureCounter := readFailureCounter flag
    if maxFailureCount ≤ failureCounter then (false, false, none)
    else (true, updateOnBoot, some (intToDecString (failureCounter + 1)))

end Firmware

/-! ### The boot-time orchestration (`boot.py check_update_on_boot`) -/

/-- Observable actions of `check_update_on_boot`, in execution order. -/
inductive BootAction where
  | restore
  | removeApplyingFlag
  | disableUpdateOnBoot
  | removeUpdateFlag
  | writeCounter (n : Int)
  | networkUp
  | checkUpdate
  | download
  | applyUpdate
  | machineReset
deriving DecidableEq, Repr

/-- Environment of one boot: the flag files found on disk and the outcome of
each external step (network, metadata check, download, apply). -/
structure BootEnv where
  applyingFlagPresent : Bool
  initOk : Bool
  updateFlagContent : Option String
  counterWriteOk : Bool
  networkConnected : Bool
  checkError : Bool
  isAvailable : Bool
  versionKnown : Bool
  downloadOk : Bool
  applyOk : Bool
deriving Repr

/-- Model of `boot.py` lines 176-216: the actions taken after the counter was
persisted, paired with `update_journey_successful`.  An `apply_update` failure
resets the machine immediately (line 207), so nothing follows it. -/
def bootUpdateSection (e : BootEnv) : List BootAction × Bool :=
  if !e.networkConnected then ([], false)
  else if !e.initOk then ([], false)
  else if e.checkError then ([.checkUpdate], false)
  else if !e.versionKnown && !e.isAvailable then ([.checkUpdate], false)
  else if e.isAvailable then
    if !e.downloadOk then ([.checkUpdate, .download], false)
    else if e.applyOk then ([.checkUpdate, .download, .applyUpdate], true)
    else ([.checkUpdate, .download, .applyUpdate, .machineReset], false)
  else ([.checkUpdate], true)

/-- Model of `boot.py` lines 218-233: after the update section, a successful journey
removes the update flag and, when an update was actually applied, resets the
machine. -/
def bootPost (e : BootEnv) : List BootAction :=
  if (bootUpdateSection e).2 then
    .removeUpdateFlag ::
      (if e.isAvailable && e.downloadOk && e.applyOk then [.machineReset] else [])
  else []

/-- Model of `boot.py check_update_on_boot` as the sequence of observable actions it
performs.  The applying-flag check comes first; the config gate
`perform_update_check_based_on_config` is hard-coded `True` in the source, and
the maximum failure count is the literal `3`. -/
def bootTrace (e : BootEnv) : List BootAction :=
  if e.applyingFlagPresent then
    (if e.initOk then [.restore] else []) ++ [.removeApplyingFlag]
  else if 3 ≤ Firmware.readFailureCounter e.updateFlagContent then
    [.disableUpdateOnBoot, .removeUpdateFlag]
  else if !e.counterWriteOk then []
  else
    .writeCounter (Firmware.readFailureCounter e.updateFlagContent + 1) ::
      .networkUp :: ((bootUpdateSection e).1 ++ bootPost e)

/-! ### Abstract filesystem trees

The flash filesystem is modelled as a tree of named entries: directories are
association lists (directory listings have unique names; `eraseE` removes
every entry with the given name so that the model does not depend on a
no-duplicates side condition). -/

/-- A filesystem object: a file with contents, or a directory of named
entries. -/
inductive Fsys where
  | file (data : String)
  | dir (entries : List (String × Fsys))

namespace Fsys

/-- Look up an entry name in a directory listing (first match). -/
def lookupE : List (String × Fsys) → String → Option Fsys
  | [], _ => none
  | (n, t) :: rest, m => if n = m then some t else lookupE rest m

/-- Write an entry: replace the first entry with that name, or append. -/
def setE : List (String × Fsys) → String → Fsys → List (String × Fsys)
  | [], n, v => [(n, v)]
  | (m, t) :: rest, n, v => if m = n then (m, v) :: rest else (m, t) :: setE rest n v

/-- Remove every entry with the given name (`uos.remove` / recursive delete
of one uniquely-named directory entry). -/
def eraseE (l : List (String × Fsys)) (n : String) : List (String × Fsys) :=
  l.filter (fun p => !(p.1 = n : Bool))

/-- Follow a path of names down the tree. -/
def lookupPath : Fsys → List String → Option Fsys
  | t, [] => some t
  | Fsys.file _, _ :: _ => none
  | Fsys.dir es, n :: p =>
    match lookupE es n with
    | some c => lookupPath c p
    | none => none

mutual

/-- Model of `FirmwareUpdater._merge_directories_recursive` on trees, for the case
where both source and destination exist as directories (the only way it is
invoked from `_move_from_update_to_root`): iterate over source entries,
renaming each into the destination; when both sides are directories, recurse;
on a file or a type mismatch the destination entry is replaced wholesale by
the renamed source subtree.  `atRoot` is true exactly when the destination is
"/", where the entries named dev, proc, sys, boot are skipped. -/
def mergeFs : Bool → Fsys → Fsys → Fsys
  | atRoot, Fsys.dir ses, Fsys.dir des => Fsys.dir (mergeEntries atRoot ses des)
  | _, _, dst => dst

/-- Entry-list worker of `mergeFs`, mirroring the `for item_name in
source_items` loop. -/
def mergeEntries : Bool → List (String × Fsys) → List (String × Fsys) → List (String × Fsys)
  | _, [], des => des
  | atRoot, (n, s) :: rest, des =>
    if atRoot && (n = "dev" || n = "proc" || n = "sys" || n = "boot") then
      mergeEntries atRoot rest des
    else
      match lookupE des n with
      | none => mergeEntries atRoot rest (setE des n s)
      | some d =>
        match s, d with
        | Fsys.dir _, Fsys.dir _ => mergeEntries atRoot rest (setE des n (mergeFs false s d))
        | _, _ => mergeEntries atRoot rest (setE des n s)

end

mutual

/-- Recursive copy-with-replace of a source tree onto a destination:
directories merge entry by entry, files and type-mismatched entries are
replaced by the source.  This is the semantics of
`FirmwareUpdater._copy_item_recursive` into an existing tree, and it is also
the reference "copy-then-delete" merge that the specification compares the
rename-based merge against. -/
def overlayFs : Fsys → Fsys → Fsys
  | Fsys.dir ses, Fsys.dir des => Fsys.dir (overlayEntries ses des)
  | src, _ => src

/-- Entry-list worker of `overlayFs`. -/
def overlayEntries : List (String × Fsys) → List (String × Fsys) → List (String × Fsys)
  | [], des => des
  | (n, s) :: rest, des =>
    match lookupE des n with
    | none => overlayEntries rest (setE des n s)
    | some d => overlayEntries rest (setE des n (overlayFs s d))

end

end Fsys

namespace Firmware

/-! ### `restore_from_backup` -/

/-- Exceptional outcomes of one `restore_from_backup` run: a failure of the
initial `uos.listdir("/")` probe, the name of the first backup item whose
copy-back raises, and an unanticipated exception inside the main try block. -/
structure RestoreEnv where
  listdirErr : Bool
  copyFail : Option String
  genericErr : Bool

/-- The per-item loop of `restore_from_backup` (lines 1188-1222): for each
top-level backup entry, remove the existing root entry of that name, then copy
the backup entry back; a copy failure aborts the loop with `False` (and the
destination already removed). -/
def restoreItems : List (String × Fsys) → Option String → List (String × Fsys) →
    Bool × List (String × Fsys)
  | [], _, root => (true, root)
  | (n, t) :: rest, copyFail, root =>
    if copyFail = some n then (false, Fsys.eraseE root n)
    else restoreItems rest copyFail (Fsys.setE (Fsys.eraseE root n) n t)

/-- Model of `FirmwareUpdater.restore_from_backup` on the root directory listing.
Paths, in source order: failed backup-directory probe (returns `False`,
nothing removed); `/backup` absent (`False`, nothing removed); `/backup` is a
file, so `uos.listdir` raises into the generic handler (`False`, applying
flag removed); empty backup (`False`, nothing removed); an unanticipated
exception (`False`, applying flag removed); a copy failure (`False`, flag
*not* removed); success (`True`, flag removed). -/
def restoreFromBackup (env : RestoreEnv) (root : List (String × Fsys)) :
    Bool × List (String × Fsys) :=
  if env.listdirErr then (false, root)
  else
    match Fsys.lookupE root "backup" with
    | none => (false, root)
    | some (Fsys.file _) => (false, Fsys.eraseE root "__applying")
    | some (Fsys.dir bes) =>
      if bes.isEmpty then (false, root)
      else if env.genericErr then (false, Fsys.eraseE root "__applying")
      else
        match restoreItems bes env.copyFail root with
        | (true, r) => (true, Fsys.eraseE r "__applying")
        | (false, r) => (false, r)

/-! ### `apply_update` -/

/-- The stage of `apply_update` at which a run returned `False`. -/
inductive ApplyStage where
  | archive
  | decompress
  | extract
  | core
  | backup
  | flag
  | merge
deriving DecidableEq, Repr

/-- Environment of one `apply_update` run: the outcome of each fallible
stage, the content each stage produces (decompressed tar bytes, extracted
staging tree), the partial states left by a failing backup or merge, and the
restore environment used if the merge fails. -/
structure ApplyEnv where
  archiveStatErr : Bool
  decompOk : Bool
  tarData : String
  extractOk : Bool
  stagingEntries : List (String × Fsys)
  coreStatErr : Bool
  backupOk : Bool
  partialBackup : List (String × Fsys)
  flagOk : Bool
  mergeOk : Bool
  postMergeRoot : List (String × Fsys)
  restoreEnv : RestoreEnv
  versionWriteOk : Bool

/-- Result of `apply_update`: the returned boolean, the stage of the failure
(if any), the final root listing, and whether `restore_from_backup` ran. -/
structure ApplyOut where
  ok : Bool
  failedAt : Option ApplyStage
  fs : List (String × Fsys)
  restored : Bool

/-- The fixed exclusion set of `_backup_existing_files` (lines 1000-1008),
as top-level entry names. -/
def backupExcludedNames : List String :=
  ["backup", "update", "update.tar.zlib", "update.tmp.tar", "log.txt", "__updating", "__applying"]

/-- What `_backup_existing_files` copies: every top-level root entry outside
the exclusion set. -/
def backupContent (r : List (String × Fsys)) : List (String × Fsys) :=
  r.filter (fun p => !(backupExcludedNames.contains p.1))

/-- The pre-existing `/backup` directory (stale content is not cleared; the
fresh copy is overlaid onto it by `_copy_item_recursive`). -/
def oldBackupDir (r : List (String × Fsys)) : Fsys :=
  match Fsys.lookupE r "backup" with
  | some (Fsys.dir b) => Fsys.dir b
  | _ => Fsys.dir []

/-- Model of `_cleanup_temp_update_files`: always removes the decompressed tar, and
optionally the extracted staging directory and the downloaded archive. -/
def cleanupTemp (removeExtracted removeArchive : Bool)
    (r : List (String × Fsys)) : List (String × Fsys) :=
  let r1 := Fsys.eraseE r "update.tmp.tar"
  let r2 := if removeExtracted then Fsys.eraseE r1 "update" else r1
  if removeArchive then Fsys.eraseE r2 "update.tar.zlib" else r2

/-- Path segments of a core-file path after `lstrip('/')` and split on "/". -/
def pathSegsOf (p : String) : List String :=
  (splitOnChar '/' (p.toList.dropWhile (fun c => c = '/'))).map (fun cs => String.mk cs)

/-- Model of `_check_core_files_exist`: every configured core path must exist in the
staging tree. -/
def coreFilesOk (cores : List String) (staging : List (String × Fsys)) : Bool :=
  cores.all (fun p => ((Fsys.dir staging).lookupPath (pathSegsOf p)).isSome)

/-- Model of `FirmwareUpdater.apply_update` as a transition on the root directory
listing, stage by stage in source order (lines 827-933): archive existence
check, decompression to `/update.tmp.tar`, extraction into `/update`, core
system files check, backup into `/backup`, creation of `/__applying`, the
rename-based merge of `/update` into `/` (an inline `restore_from_backup` on
merge failure — with the post-crash partial root drawn from the environment),
then version-file write, temp cleanup, and flag removal. -/
def applyUpdate (env : ApplyEnv) (cores : List String) (pendingVersion : Option String)
    (root : List (String × Fsys)) : ApplyOut :=
  if env.archiveStatErr then ⟨false, some .archive, root, false⟩
  else if (Fsys.lookupE root "update.tar.zlib").isNone then ⟨false, some .archive, root, false⟩
  else
    let r1 := Fsys.setE root "update.tmp.tar" (Fsys.file env.tarData)
    if !env.decompOk then ⟨false, some .decompress, cleanupTemp false false r1, false⟩
    else
      let r2 := Fsys.setE r1 "update" (Fsys.dir env.stagingEntries)
      if !env.extractOk then ⟨false, some .extract, cleanupTemp true false r2, false⟩
      else if !cores.isEmpty && (env.coreStatErr || !coreFilesOk cores env.stagingEntries) then
        ⟨false, some .core, cleanupTemp true false r2, false⟩
      else
        let r3 := Fsys.setE r2 "backup"
          (if env.backupOk then Fsys.overlayFs (Fsys.dir (backupContent r2)) (oldBackupDir r2)
           else Fsys.dir env.partialBackup)
        if !env.backupOk then ⟨false, some .backup, cleanupTemp true false r3, false⟩
        else if !env.flagOk then ⟨false, some .flag, cleanupTemp true false r3, false⟩
        else
          let r4 := Fsys.setE r3 "__applying" (Fsys.file "")
          if !env.mergeOk then
            ⟨false, some .merge,
              cleanupTemp true false (restoreFromBackup env.restoreEnv env.postMergeRoot).2, true⟩
          else
            let r5 := Fsys.mergeEntries true env.stagingEntries r4
            let r6 := match pendingVersion with
              | some v =>
                if env.versionWriteOk then Fsys.setE r5 "version.txt" (Fsys.file v) else r5
              | none => r5
            ⟨true, none,
              Fsys.eraseE (Fsys.eraseE (cleanupTemp true true r6) "__applying") "__updating",
              false⟩

/-- The working paths of an update run: staging directory, backup directory,
and the fixed temporary/flag files. -/
def workingNames : List String :=
  ["update", "backup", "update.tar.zlib", "update.tmp.tar", "__applying", "__updating"]

end Firmware

namespace Firmware

/-! ### SHA-256 and tar-entry verification

This models `hashlib.sha256` (FIPS 180-4) over byte lists together with
`binascii.hexlify`, exactly as `_process_tar_entry` uses them. -/

/-- Addition modulo 2 to the 32. -/
def add32 (a b : Nat) : Nat := (a + b) % 4294967296

/-- Rotate right within 32 bits. -/
def rotr (n x : Nat) : Nat := ((x >>> n) ||| (x <<< (32 - n))) % 4294967296

/-- SHA-256 big sigma 0. -/
def bsig0 (x : Nat) : Nat := (rotr 2 x) ^^^ (rotr 13 x) ^^^ (rotr 22 x)

/-- SHA-256 big sigma 1. -/
def bsig1 (x : Nat) : Nat := (rotr 6 x) ^^^ (rotr 11 x) ^^^ (rotr 25 x)

/-- SHA-256 small sigma 0. -/
def ssig0 (x : Nat) : Nat := (rotr 7 x) ^^^ (rotr 18 x) ^^^ (x >>> 3)

/-- SHA-256 small sigma 1. -/
def ssig1 (x : Nat) : Nat := (rotr 17 x) ^^^ (rotr 19 x) ^^^ (x >>> 10)

/-- SHA-256 choose function. -/
def chf (e f g : Nat) : Nat := (e &&& f) ^^^ ((e ^^^ 4294967295) &&& g)

/-- SHA-256 majority function. -/
def majf (a b c : Nat) : Nat := (a &&& b) ^^^ (a &&& c) ^^^ (b &&& c)

/-- The 64 SHA-256 round constants, written in decimal. -/
def kConsts : List Nat :=
  [1116352408, 1899447441, 3049323471, 3921009573, 961987163,
   1508970993, 2453635748, 2870763221, 3624381080, 310598401,
   607225278, 1426881987, 1925078388, 2162078206, 2614888103,
   3248222580, 3835390401, 4022224774, 264347078, 604807628,
   770255983, 1249150122, 1555081692, 1996064986, 2554220882,
   2821834349, 2952996808, 3210313671, 3336571891, 3584528711,
   113926993, 338241895, 666307205, 773529912, 1294757372,
   1396182291, 1695183700, 1986661051, 2177026350, 2456956037,
   2730485921, 2820302411, 3259730800, 3345764771, 3516065817,
   3600352804, 4094571909, 275423344, 430227734, 506948616,
   659060556, 883997877, 958139571, 1322822218, 1537002063,
   1747873779, 1955562222, 2024104815, 2227730452, 2361852424,
   2428436474, 2756734187, 3204031479, 3329325298]

/-- The SHA-256 initial hash state, written in decimal. -/
def hInit : List Nat :=
  [1779033703, 3144134277, 1013904242, 2773480762, 1359893119,
   2600822924, 528734635, 1541459225]

/-- Big-endian 8-byte encoding. -/
def be64 (n : Nat) : List Nat :=
  [(n >>> 56) % 256, (n >>> 48) % 256, (n >>> 40) % 256, (n >>> 32) % 256,
   (n >>> 24) % 256, (n >>> 16) % 256, (n >>> 8) % 256, n % 256]

/-- SHA-256 message padding. -/
def sha256pad (msg : List Nat) : List Nat :=
  msg ++ 128 :: List.replicate ((119 - msg.length % 64) % 64) 0 ++ be64 (msg.length * 8)

/-- Bytes to big-endian 32-bit words. -/
def toWords : List Nat → List Nat
  | b0 :: b1 :: b2 :: b3 :: rest => (((b0 * 256 + b1) * 256 + b2) * 256 + b3) :: toWords rest
  | _ => []

/-- Extend a 16-word block to the 64-word message schedule. -/
def extendSchedule : Nat → List Nat → List Nat
  | 0, w => w
  | f + 1, w =>
    let i := w.length
    extendSchedule f (w ++ [add32 (add32 (ssig1 (w.getD (i - 2) 0)) (w.getD (i - 7) 0))
      (add32 (ssig0 (w.getD (i - 15) 0)) (w.getD (i - 16) 0))])

/-- One SHA-256 compression round. -/
def compressRound (st : List Nat) (kw : Nat × Nat) : List Nat :=
  let a := st.getD 0 0
  let b := st.getD 1 0
  let c := st.getD 2 0
  let d := st.getD 3 0
  let e := st.getD 4 0
  let f := st.getD 5 0
  let g := st.getD 6 0
  let h := st.getD 7 0
  let t1 := add32 h (add32 (bsig1 e) (add32 (chf e f g) (add32 kw.1 kw.2)))
  let t2 := add32 (bsig0 a) (majf a b c)
  [add32 t1 t2, a, b, c, add32 d t1, e, f, g]

/-- Process one 512-bit block. -/
def processBlock (h : List Nat) (block : List Nat) : List Nat :=
  let w := extendSchedule 48 block
  List.zipWith add32 h ((kConsts.zip w).foldl compressRound h)

/-- Split a word list into 16-word blocks (fuel-driven). -/
def toBlocksF : Nat → List Nat → List (List Nat)
  | 0, _ => []
  | _, [] => []
  | f + 1, l => l.take 16 :: toBlocksF f (l.drop 16)

/-- SHA-256 digest (32 bytes) of a byte list. -/
def sha256 (msg : List Nat) : List Nat :=
  let ws := toWords (sha256pad msg)
  ((toBlocksF ws.length ws).foldl processBlock hInit).foldr
    (fun w acc => (w >>> 24) % 256 :: (w >>> 16) % 256 :: (w >>> 8) % 256 :: w % 256 :: acc) []

/-- A lowercase hex digit, as produced by `binascii.hexlify`. -/
def hexDigitChar (n : Nat) : Char := if n < 10 then Char.ofNat (48 + n) else Char.ofNat (87 + n)

/-- Lowercase hex encoding of bytes (`binascii.hexlify(...).decode()`). -/
def hexOfBytes (bs : List Nat) : String :=
  String.mk (bs.foldr (fun b acc => hexDigitChar (b / 16) :: hexDigitChar (b % 16) :: acc) [])

/-- The computed digest string of `_process_tar_entry`:
`binascii.hexlify(hashlib.sha256(bytes).digest()).decode()`. -/
def sha256hex (data : List Nat) : String := hexOfBytes (sha256 data)

/-- Lowercasing of a string, used to state case-insensitive hex comparison. -/
def lowerStr (s : String) : String := String.mk (s.toList.map Char.toLower)

/-- Does the pattern occur at the head? -/
def beginsWithChars : List Char → List Char → Bool
  | [], _ => true
  | _ :: _, [] => false
  | p :: ps, c :: cs => p = c && beginsWithChars ps cs

/-- Python `pattern in s` on character lists. -/
def containsChars (pat : List Char) : List Char → Bool
  | [] => beginsWithChars pat []
  | c :: cs => beginsWithChars pat (c :: cs) || containsChars pat cs

/-- The skip conditions of `_process_tar_entry` (lines 681-686): PaxHeader
entries and names that are absolute, contain "..", or start with ".". -/
def unsafeTarName (name : String) : Bool :=
  containsChars "@PaxHeader".toList name.toList ||
  beginsWithChars ['/'] name.toList ||
  containsChars ['.', '.'] name.toList ||
  beginsWithChars ['.'] name.toList

/-- One tar entry as `_process_tar_entry` sees it: its name, whether it is a
directory entry, and the file bytes. -/
structure TarEntry where
  name : String
  isDir : Bool
  data : List Nat

/-- Association lookup in the `hash_sums` mapping. -/
def lookupHash : List (String × String) → String → Option String
  | [], _ => none
  | (k, v) :: rest, m => if k = m then some v else lookupHash rest m

/-- Model of `FirmwareUpdater._process_tar_entry` returning (processed, had_error),
given the current `hash_sums` state: unsafe names are skipped; directories
are created; `integrity.json` is extracted verbatim; any other file is hashed
while extracting and, when `hash_sums` is nonempty and holds an entry for the
name, the computed lowercase hex digest is compared to the expected digest by
exact string equality (`computed_hash != expected_hash`, line 734); a file
with no manifest entry is extracted and only logged. -/
def processTarEntry (hashSums : List (String × String)) (e : TarEntry) : Bool × Bool :=
  if unsafeTarName e.name then (false, false)
  else if e.isDir then (true, false)
  else if e.name = "integrity.json" then (true, false)
  else
    if hashSums.isEmpty then (true, false)
    else
      match lookupHash hashSums e.name with
      | some expected =>
        if sha256hex e.data ≠ expected then (true, true) else (true, false)
      | none => (true, false)

/-- One step of the `_extract_firmware` loop: process the entry under the
current `hash_sums`, count processed entries and errors, and install the
parsed manifest as `hash_sums` right after the `integrity.json` entry is
extracted (`manifest` stands for the parse of the extracted manifest file). -/
def extractStep (manifest : List (String × String))
    (acc : Nat × Nat × List (String × String)) (e : TarEntry) : Nat × Nat × List (String × String) :=
  let pe := processTarEntry acc.2.2 e
  let hs' := if !(unsafeTarName e.name) && !e.isDir && e.name = "integrity.json" then manifest
    else acc.2.2
  (acc.1 + (if pe.1 then 1 else 0), acc.2.1 + (if pe.2 then 1 else 0), hs')

/-- Model of `FirmwareUpdater._extract_firmware` over a list of tar entries: starts
with empty `hash_sums`, folds the entry loop, and succeeds only when no entry
raised an error and at least one entry was processed. -/
def extractFirmware (manifest : List (String × String)) (entries : List TarEntry) : Bool :=
  let acc := entries.foldl (extractStep manifest) (0, 0, [])
  decide (acc.2.1 = 0) && decide (0 < acc.1)

end Firmware

/-- A concrete updater state used as a witness input. -/
def sampleFUState : Firmware.FUState :=
  ⟨"picoW", "1.0.0", none, none, some "owner/repo", "", 2048, 10, ["main.py"], true, 3,
    none, false, 0, 0, false, false, "/update.tar.zlib", none, "/backup", [],
    "/__updating", "/__applying"⟩

/-- A boot environment with the applying flag set and a low failure counter. -/
def bootEnvApplying : BootEnv :=
  ⟨true, true, some "1", true, true, false, false, true, true, true⟩

/-- A root listing with a populated backup directory and the applying flag. -/
def restoreRootW : List (String × Fsys) :=
  [("backup", Fsys.dir [("main.py", Fsys.file "old")]),
   ("__applying", Fsys.file ""),
   ("main.py", Fsys.file "cur")]

/-- A run whose decompression fails, on a root with an archive and a user
file. -/
def applyEnvDecompFail : Firmware.ApplyEnv :=
  ⟨false, false, "", true, [], false, true, [], true, true, [], ⟨false, none, false⟩, true⟩

/-- A run that reaches the merge and fails there, leaving a partial root with
an intact backup. -/
def applyEnvMergeFail : Firmware.ApplyEnv :=
  ⟨false, true, "tar", true, [("main.py", Fsys.file "new")], false, true, [], true, false,
    [("backup", Fsys.dir [("main.py", Fsys.file "old")]),
     ("main.py", Fsys.file "partial"),
     ("__applying", Fsys.file "")],
    ⟨false, none, false⟩, true⟩

/-- A second merge-failing run, used as the witness input. -/
def applyEnvMergeFailW : Firmware.ApplyEnv :=
  ⟨false, true, "t2", true, [("cfg.json", Fsys.file "c")], false, true, [], true, false,
    [("backup", Fsys.dir [("cfg.json", Fsys.file "old")]), ("__applying", Fsys.file "")],
    ⟨false, none, false⟩, true⟩

/-! ### C6: version comparison agrees with strict lexicographic tuple order -/

/-- Boolean tuple `<=` unfolded to a proposition. -/
theorem Firmware.tupleLe_iff (x y : Int × Int × Int) :
    Firmware.tupleLe x y = true ↔
      (x.1 < y.1 ∨ (x.1 = y.1 ∧ (x.2.1 < y.2.1 ∨ (x.2.1 = y.2.1 ∧ x.2.2 ≤ y.2.2)))) := by
  simp [Firmware.tupleLe]

/-- Claim C6: on version strings that parse as (major,minor,patch) integer
triples the newer-version check returns `true` exactly when the candidate
triple is strictly greater in lexicographic tuple order (so equal versions are
not an update), with no error recorded; and whenever either string is not a
three-numeric-component string, the comparison fails with a version-format
error (`self.error` set, result `false`) instead of silently defaulting. -/
theorem C6_version_compare :
    (∀ cur cand a b, Firmware.parseSemver cur = some a →
      Firmware.parseSemver cand = some b →
      ((Firmware.compareVersions cur cand).1 = true ↔
        Prod.Lex (· < ·) (Prod.Lex (· < ·) (· < ·)) a b) ∧
      (Firmware.compareVersions cur cand).2 = none) ∧
    (∀ cur cand, (Firmware.parseSemver cur = none ∨ Firmware.parseSemver cand = none) →
      Firmware.compareVersions cur cand = (false, some "Version comparison error")) := by
  constructor
  · intro cur cand a b ha hb
    obtain ⟨a1, a2, a3⟩ := a
    obtain ⟨b1, b2, b3⟩ := b
    unfold Firmware.compareVersions
    rw [ha, hb]
    dsimp only
    refine ⟨?_, rfl⟩
    by_cases h : Firmware.tupleLe (b1, b2, b3) (a1, a2, a3) = true
    · rw [if_pos h]
      rw [Firmware.tupleLe_iff] at h
      dsimp only at h
      simp only [Bool.false_eq_true, false_iff]
      rw [Prod.lex_def, Prod.lex_def]
      dsimp only
      omega
    · rw [if_neg h]
      have h' := mt (Firmware.tupleLe_iff (b1, b2, b3) (a1, a2, a3)).2 h
      dsimp only at h'
      simp only [true_iff]
      rw [Prod.lex_def, Prod.lex_def]
      dsimp only
      omega
  · intro cur cand h
    unfold Firmware.compareVersions
    rcases h with h | h
    · rw [h]
    · cases hc : Firmware.parseSemver cur
      · rfl
      · rw [h]

/-- Witness for C6 at concrete inputs: "1.2.3" against "1.2.4" is an update,
and the malformed "1.2" fails with the error recorded. -/
theorem C6_version_compare_witness :
    (Firmware.compareVersions "1.2.3" "1.2.4").1 = true ∧
    Firmware.compareVersions "1.2" "1.2.4" =
      (false, some "Version comparison error") := by
  refine ⟨?_, ?_⟩
  · have h := (C6_version_compare.1 "1.2.3" "1.2.4" (1, 2, 3) (1, 2, 4)
      (by decide) (by decide)).1
    rw [h]
    exact Prod.Lex.right _ (Prod.Lex.right _ (by decide))
  · exact C6_version_compare.2 "1.2" "1.2.4" (Or.inl (by decide))

/-! ### C10: percent_complete is guarded and exact -/

/-- Claim C10: `percent_complete` returns 0 whenever the download has not
started or `total_size` is zero, and otherwise the integer truncation of
`(bytes_read / total_size) * 100` (stated against exact rational arithmetic);
the division is guarded by the `total_size == 0` test, so its zero-divisor
error branch is unreachable. -/
theorem C10_percent_complete (s : Firmware.DlState) :
    (s.downloadStarted = false ∨ s.totalSize = 0 → Firmware.percentComplete s = 0) ∧
    (s.downloadStarted = true → 0 < s.totalSize →
      Firmware.percentComplete s =
        Nat.floor ((s.bytesRead : ℚ) / (s.totalSize : ℚ) * 100)) := by
  constructor
  · intro h
    unfold Firmware.percentComplete
    rcases h with h | h
    · rw [h]; rfl
    · rw [h]; simp
  · intro hs ht
    unfold Firmware.percentComplete
    rw [hs]
    have hne : s.totalSize ≠ 0 := Nat.pos_iff_ne_zero.mp ht
    simp only [Bool.not_true, Bool.false_or, beq_iff_eq, if_neg hne]
    have hcast : (s.bytesRead : ℚ) / (s.totalSize : ℚ) * 100 =
        ((s.bytesRead * 100 : ℕ) : ℚ) / ((s.totalSize : ℕ) : ℚ) := by
      push_cast
      ring
    rw [hcast, Nat.floor_div_nat, Nat.floor_natCast]

/-- Witness for C10: 58 of 200 bytes is 29 percent, and an unstarted download
reports 0. -/
theorem C10_percent_complete_witness :
    Firmware.percentComplete ⟨true, 200, 58⟩ = 29 ∧
    Firmware.percentComplete ⟨false, 200, 58⟩ = 0 := by
  constructor
  · have h := (C10_percent_complete ⟨true, 200, 58⟩).2 rfl (by norm_num)
    rw [h]
    rw [show ((58 : ℕ) : ℚ) / ((200 : ℕ) : ℚ) * 100 = ((29 : ℕ) : ℚ) by push_cast; norm_num]
    exact Nat.floor_natCast 29
  · exact (C10_percent_complete ⟨false, 200, 58⟩).1 (Or.inl rfl)

/-! ### C9: re-constructing the singleton is a no-op except for the callback -/

/-- Claim C9: `FirmwareUpdater(...)` on an already-initialized singleton
returns the existing `_instance`, and `__init__` leaves every configuration
and state field unchanged, replacing only `progress_callback`, and that only
when a non-None callback argument is supplied. -/
theorem C9_singleton_reinit (inst fresh : Firmware.FUState) (cb : Option Nat) :
    Firmware.fuNew (some inst) fresh = inst ∧
    ((cb = none → Firmware.fuInitAgain inst cb = inst) ∧
     (∀ c, cb = some c →
        (Firmware.fuInitAgain inst cb).progressCallback = some c) ∧
     (Firmware.fuInitAgain inst cb).deviceModel = inst.deviceModel ∧
     (Firmware.fuInitAgain inst cb).currentVersion = inst.currentVersion ∧
     (Firmware.fuInitAgain inst cb).error = inst.error ∧
     (Firmware.fuInitAgain inst cb).directBaseUrl = inst.directBaseUrl ∧
     (Firmware.fuInitAgain inst cb).githubRepo = inst.githubRepo ∧
     (Firmware.fuInitAgain inst cb).githubToken = inst.githubToken ∧
     (Firmware.fuInitAgain inst cb).chunkSize = inst.chunkSize ∧
     (Firmware.fuInitAgain inst cb).maxRedirects = inst.maxRedirects ∧
     (Firmware.fuInitAgain inst cb).coreSystemFiles = inst.coreSystemFiles ∧
     (Firmware.fuInitAgain inst cb).updateOnBoot = inst.updateOnBoot ∧
     (Firmware.fuInitAgain inst cb).maxFailureCount = inst.maxFailureCount ∧
     (Firmware.fuInitAgain inst cb).isDirectMode = inst.isDirectMode ∧
     (Firmware.fuInitAgain inst cb).totalSize = inst.totalSize ∧
     (Firmware.fuInitAgain inst cb).bytesRead = inst.bytesRead ∧
     (Firmware.fuInitAgain inst cb).downloadDone = inst.downloadDone ∧
     (Firmware.fuInitAgain inst cb).downloadStarted = inst.downloadStarted ∧
     (Firmware.fuInitAgain inst cb).firmwareDownloadPath = inst.firmwareDownloadPath ∧
     (Firmware.fuInitAgain inst cb).pendingUpdateVersion = inst.pendingUpdateVersion ∧
     (Firmware.fuInitAgain inst cb).backupDir = inst.backupDir ∧
     (Firmware.fuInitAgain inst cb).hashSums = inst.hashSums ∧
     (Firmware.fuInitAgain inst cb).updateFlagPath = inst.updateFlagPath ∧
     (Firmware.fuInitAgain inst cb).applyingFlagPath = inst.applyingFlagPath) := by
  refine ⟨rfl, ?_⟩
  cases cb <;>
    simp [Firmware.fuInitAgain]

/-- Witness for C9 at a concrete state: supplying callback token 7 replaces
only the callback; the device model survives, and `__new__` hands back the
existing instance. -/
theorem C9_singleton_reinit_witness :
    Firmware.fuNew (some sampleFUState) sampleFUState = sampleFUState ∧
    (Firmware.fuInitAgain sampleFUState (some 7)).progressCallback = some 7 ∧
    (Firmware.fuInitAgain sampleFUState (some 7)).deviceModel = "picoW" ∧
    Firmware.fuInitAgain sampleFUState none = sampleFUState := by
  have h := C9_singleton_reinit sampleFUState sampleFUState (some 7)
  have h0 := C9_singleton_reinit sampleFUState sampleFUState (none : Option Nat)
  exact ⟨h.1, h.2.2.1 7 rfl, h.2.2.2.1.trans rfl, h0.2.1 rfl⟩

/-! ### C2: the applying flag short-circuits the boot sequence -/

/-- Claim C2: whenever the `applying_flag` file exists at startup, the boot
sequence goes straight to restore-from-backup and stops: no network bring-up,
no metadata check, no download, irrespective of the failure counter stored in
`update_flag` (the config gate is hard-coded on in the source); when the
firmware manager initializes, the very first action is the restore. -/
theorem C2_applying_flag_short_circuits (e : BootEnv)
    (he : e.applyingFlagPresent = true) :
    bootTrace e =
      (if e.initOk then [BootAction.restore] else []) ++ [BootAction.removeApplyingFlag] ∧
    BootAction.networkUp ∉ bootTrace e ∧
    BootAction.checkUpdate ∉ bootTrace e ∧
    BootAction.download ∉ bootTrace e ∧
    (e.initOk = true → (bootTrace e).head? = some BootAction.restore) := by
  have ht : bootTrace e =
      (if e.initOk then [BootAction.restore] else []) ++ [BootAction.removeApplyingFlag] := by
    unfold bootTrace
    rw [if_pos he]
  refine ⟨ht, ?_, ?_, ?_, ?_⟩
  · rw [ht]; cases hi : e.initOk <;> simp
  · rw [ht]; cases hi : e.initOk <;> simp
  · rw [ht]; cases hi : e.initOk <;> simp
  · intro hi
    rw [ht, hi]
    rfl

/-- Witness for C2: with the applying flag present the whole trace is
restore-then-remove-flag, and the network is never brought up. -/
theorem C2_applying_flag_short_circuits_witness :
    bootTrace bootEnvApplying = [BootAction.restore, BootAction.removeApplyingFlag] ∧
    BootAction.networkUp ∉ bootTrace bootEnvApplying := by
  have h := C2_applying_flag_short_circuits bootEnvApplying rfl
  exact ⟨by rw [h.1]; rfl, h.2.1⟩

/-! ### C7: retry accounting -/

/-- Counterexample to C7 as stated: with `update_on_boot` disabled and a
stored counter of 0 (< `max_failure_attempts` = 3) the claim's "otherwise"
arm demands the counter be incremented and persisted, but
`should_attempt_update` skips, removing the flag file instead of writing an
incremented counter. -/
theorem C7_retry_budget_counterexample :
    Firmware.readFailureCounter (some "0") < 3 ∧
    (Firmware.shouldAttemptUpdate false 3 (some "0")).2.2 = none ∧
    (Firmware.shouldAttemptUpdate false 3 (some "0")).1 = false := by
  refine ⟨by decide, rfl, rfl⟩

/-- Claim C7 as amended: *when `update_on_boot` is enabled*, a counter at or
above `max_failure_attempts` skips the attempt, turns `update_on_boot` off and
removes `update_flag`, while a lower counter increments the counter and
persists it; when `update_on_boot` is disabled the attempt is skipped and the
stale flag removed without incrementing.  In the boot sequence, the persisted
counter write strictly precedes any network operation. -/
theorem C7_retry_budget (maxA : Int) (flag : Option String) :
    ((maxA ≤ Firmware.readFailureCounter flag →
        Firmware.shouldAttemptUpdate true maxA flag = (false, false, none)) ∧
      (Firmware.readFailureCounter flag < maxA →
        Firmware.shouldAttemptUpdate true maxA flag =
          (true, true,
            some (Firmware.intToDecString (Firmware.readFailureCounter flag + 1))))) ∧
    Firmware.shouldAttemptUpdate false maxA flag = (false, false, none) ∧
    (∀ e : BootEnv, BootAction.networkUp ∈ bootTrace e →
      ∃ n rest, bootTrace e = BootAction.writeCounter n :: BootAction.networkUp :: rest) := by
  refine ⟨⟨?_, ?_⟩, rfl, ?_⟩
  · intro h
    unfold Firmware.shouldAttemptUpdate
    simp only [Bool.not_true, Bool.false_eq_true, if_false, if_pos h]
  · intro h
    unfold Firmware.shouldAttemptUpdate
    simp only [Bool.not_true, Bool.false_eq_true, if_false, if_neg (not_le.mpr h)]
  · intro e hmem
    unfold bootTrace at hmem ⊢
    by_cases hA : e.applyingFlagPresent = true
    · rw [if_pos hA] at hmem
      exfalso
      cases hi : e.initOk <;> rw [hi] at hmem <;> simp at hmem
    · rw [if_neg hA] at hmem ⊢
      by_cases h3 : 3 ≤ Firmware.readFailureCounter e.updateFlagContent
      · rw [if_pos h3] at hmem
        exfalso
        simp at hmem
      · rw [if_neg h3] at hmem ⊢
        cases hw : e.counterWriteOk
        · simp [hw] at hmem
        · refine ⟨Firmware.readFailureCounter e.updateFlagContent + 1,
            (bootUpdateSection e).1 ++ bootPost e, ?_⟩
          simp [hw]

/-- Witness for C7 (amended): counter 1 is incremented to a persisted "2";
counter 3 hits the budget and disables updates while removing the flag. -/
theorem C7_retry_budget_witness :
    Firmware.shouldAttemptUpdate true 3 (some "1") = (true, true, some "2") ∧
    Firmware.shouldAttemptUpdate true 3 (some "3") = (false, false, none) := by
  have h1 := (C7_retry_budget 3 (some "1")).1.2 (by decide)
  have h2 := (C7_retry_budget 3 (some "3")).1.1 (by decide)
  exact ⟨by rw [h1]; rfl, h2⟩

/-! ### Merge versus reference copy -/

/-- Below the root level (`atRoot = false`, where nothing is skipped) the
rename-based merge produces exactly the recursive-copy overlay. -/
theorem Fsys.mergeEntries_false_eq_overlay (k : Nat) :
    ∀ ses des, sizeOf ses ≤ k →
      Fsys.mergeEntries false ses des = Fsys.overlayEntries ses des := by
  induction k with
  | zero =>
    intro ses des h
    cases ses with
    | nil => rfl
    | cons p rest =>
      exfalso
      simp only [List.cons.sizeOf_spec] at h
      omega
  | succ k ih =>
    intro ses des h
    cases ses with
    | nil => rfl
    | cons p rest =>
      obtain ⟨n, s⟩ := p
      have hsz : sizeOf rest ≤ k ∧ sizeOf s ≤ k := by
        simp only [List.cons.sizeOf_spec, Prod.mk.sizeOf_spec] at h
        omega
      rw [Fsys.mergeEntries, Fsys.overlayEntries]
      simp only [Bool.false_and, Bool.false_eq_true, if_false]
      cases hl : Fsys.lookupE des n with
      | none => exact ih rest _ hsz.1
      | some d =>
        cases s with
        | file a => cases d <;> exact ih rest _ hsz.1
        | dir ss =>
          cases d with
          | file b => exact ih rest _ hsz.1
          | dir dd =>
            have hss : sizeOf ss ≤ k := by
              have h2 := hsz.2
              simp only [Fsys.dir.sizeOf_spec] at h2
              omega
            have hinner : Fsys.mergeFs false (Fsys.dir ss) (Fsys.dir dd) =
                Fsys.overlayFs (Fsys.dir ss) (Fsys.dir dd) := by
              rw [Fsys.mergeFs, Fsys.overlayFs, ih ss dd hss]
            dsimp only
            rw [hinner]
            exact ih rest _ hsz.1

/-- At the root level the two merges also agree, provided no top-level
source entry carries one of the names skipped when merging into "/". -/
theorem Fsys.mergeEntries_true_eq_overlay :
    ∀ ses des, (∀ p ∈ ses, ¬(p.1 = "dev" ∨ p.1 = "proc" ∨ p.1 = "sys" ∨ p.1 = "boot")) →
      Fsys.mergeEntries true ses des = Fsys.overlayEntries ses des := by
  intro ses
  induction ses with
  | nil => intro des _; rfl
  | cons p rest ih =>
    intro des h
    obtain ⟨n, s⟩ := p
    have hn := h (n, s) (List.mem_cons_self _ _)
    push_neg at hn
    have hrest : ∀ q ∈ rest, ¬(q.1 = "dev" ∨ q.1 = "proc" ∨ q.1 = "sys" ∨ q.1 = "boot") :=
      fun q hq => h q (List.mem_cons_of_mem _ hq)
    rw [Fsys.mergeEntries, Fsys.overlayEntries]
    have hcond : (true && (n = "dev" || n = "proc" || n = "sys" || n = "boot" : Bool)) = false := by
      simp [hn.1, hn.2.1, hn.2.2.1, hn.2.2.2]
    rw [hcond]
    simp only [Bool.false_eq_true, if_false]
    cases hl : Fsys.lookupE des n with
    | none => exact ih _ hrest
    | some d =>
      cases s with
      | file a => cases d <;> exact ih _ hrest
      | dir ss =>
        cases d with
        | file b => exact ih _ hrest
        | dir dd =>
          have hinner : Fsys.mergeFs false (Fsys.dir ss) (Fsys.dir dd) =
              Fsys.overlayFs (Fsys.dir ss) (Fsys.dir dd) := by
            rw [Fsys.mergeFs, Fsys.overlayFs,
              Fsys.mergeEntries_false_eq_overlay (sizeOf ss) ss dd (le_refl _)]
          dsimp only
          rw [hinner]
          exact ih _ hrest

/-! ### C8: rename-based merge refines the reference copy-then-delete merge -/

/-- Counterexample to C8 as stated (for *every* staging tree): a staging tree
whose top-level entry is named "dev" is skipped by the rename-based merge into
"/", but the reference copy merge installs it; the results differ at the path
"dev". -/
theorem C8_merge_copy_counterexample :
    Fsys.lookupPath
        (Fsys.mergeFs true (Fsys.dir [("dev", Fsys.file "payload")]) (Fsys.dir [])) ["dev"] =
      none ∧
    Fsys.lookupPath
        (Fsys.overlayFs (Fsys.dir [("dev", Fsys.file "payload")]) (Fsys.dir [])) ["dev"] =
      some (Fsys.file "payload") :=
  ⟨rfl, rfl⟩

/-- Claim C8 as amended: for every staging tree *none of whose top-level
entries is named dev, proc, sys or boot* (the names the merge skips when the
destination is "/") and every root tree, the rename-based recursive merge
produces exactly the tree produced by the reference copy-then-delete merge —
the same result at every path, covering new files, overwritten files, and
type-changed paths. -/
theorem C8_merge_equals_copy (ses des : List (String × Fsys))
    (h : ∀ p ∈ ses, ¬(p.1 = "dev" ∨ p.1 = "proc" ∨ p.1 = "sys" ∨ p.1 = "boot")) :
    Fsys.mergeFs true (Fsys.dir ses) (Fsys.dir des) =
      Fsys.overlayFs (Fsys.dir ses) (Fsys.dir des) ∧
    ∀ path, Fsys.lookupPath (Fsys.mergeFs true (Fsys.dir ses) (Fsys.dir des)) path =
      Fsys.lookupPath (Fsys.overlayFs (Fsys.dir ses) (Fsys.dir des)) path := by
  have he : Fsys.mergeFs true (Fsys.dir ses) (Fsys.dir des) =
      Fsys.overlayFs (Fsys.dir ses) (Fsys.dir des) := by
    rw [Fsys.mergeFs, Fsys.overlayFs, Fsys.mergeEntries_true_eq_overlay ses des h]
  exact ⟨he, fun path => by rw [he]⟩

/-- Witness for C8 (amended) on a mixed staging tree: a new file, a merged
subdirectory, and a file-to-directory type change give identical results under
both merges. -/
theorem C8_merge_equals_copy_witness :
    Fsys.mergeFs true
      (Fsys.dir [("app.py", Fsys.file "new"),
                 ("lib", Fsys.dir [("util.py", Fsys.file "u2")]),
                 ("cfg", Fsys.dir [("a", Fsys.file "x")])])
      (Fsys.dir [("lib", Fsys.dir [("old.py", Fsys.file "o")]),
                 ("cfg", Fsys.file "was-file"),
                 ("keep.txt", Fsys.file "k")]) =
    Fsys.overlayFs
      (Fsys.dir [("app.py", Fsys.file "new"),
                 ("lib", Fsys.dir [("util.py", Fsys.file "u2")]),
                 ("cfg", Fsys.dir [("a", Fsys.file "x")])])
      (Fsys.dir [("lib", Fsys.dir [("old.py", Fsys.file "o")]),
                 ("cfg", Fsys.file "was-file"),
                 ("keep.txt", Fsys.file "k")]) :=
  (C8_merge_equals_copy _ _ (by decide)).1

/-! ### Entry-lookup frame lemmas -/

/-- Writing one name leaves lookups of other names unchanged. -/
theorem Fsys.lookupE_setE_ne (l : List (String × Fsys)) (n : String) (v : Fsys)
    (m : String) (h : m ≠ n) : Fsys.lookupE (Fsys.setE l n v) m = Fsys.lookupE l m := by
  induction l with
  | nil =>
    simp only [Fsys.setE, Fsys.lookupE]
    rw [if_neg (fun he => h he.symm)]
  | cons p rest ih =>
    obtain ⟨q, t⟩ := p
    simp only [Fsys.setE]
    by_cases hq : q = n
    · subst hq
      simp only [if_pos rfl, Fsys.lookupE]
      rw [if_neg (fun he => h he.symm), if_neg (fun he => h he.symm)]
    · rw [if_neg hq]
      simp only [Fsys.lookupE]
      by_cases hqm : q = m
      · rw [if_pos hqm, if_pos hqm]
      · rw [if_neg hqm, if_neg hqm, ih]

/-- Writing a name makes it readable. -/
theorem Fsys.lookupE_setE_self (l : List (String × Fsys)) (n : String) (v : Fsys) :
    Fsys.lookupE (Fsys.setE l n v) n = some v := by
  induction l with
  | nil => simp [Fsys.setE, Fsys.lookupE]
  | cons p rest ih =>
    obtain ⟨q, t⟩ := p
    simp only [Fsys.setE]
    by_cases hq : q = n
    · rw [if_pos hq]
      simp [Fsys.lookupE, hq]
    · rw [if_neg hq]
      simp only [Fsys.lookupE]
      rw [if_neg hq]
      exact ih

/-- Erasing an entry name drops that entry and keeps the others. -/
theorem Fsys.eraseE_cons_self (q : String) (t : Fsys) (rest : List (String × Fsys))
    (n : String) (hq : q = n) :
    Fsys.eraseE ((q, t) :: rest) n = Fsys.eraseE rest n := by
  simp [Fsys.eraseE, List.filter_cons, hq]

/-- Erasing a different name keeps the head entry. -/
theorem Fsys.eraseE_cons_ne (q : String) (t : Fsys) (rest : List (String × Fsys))
    (n : String) (hq : q ≠ n) :
    Fsys.eraseE ((q, t) :: rest) n = (q, t) :: Fsys.eraseE rest n := by
  simp [Fsys.eraseE, List.filter_cons, hq]

/-- Erasing one name leaves lookups of other names unchanged. -/
theorem Fsys.lookupE_eraseE_ne (l : List (String × Fsys)) (n : String)
    (m : String) (h : m ≠ n) : Fsys.lookupE (Fsys.eraseE l n) m = Fsys.lookupE l m := by
  induction l with
  | nil => rfl
  | cons p rest ih =>
    obtain ⟨q, t⟩ := p
    by_cases hq : q = n
    · rw [Fsys.eraseE_cons_self q t rest n hq, ih]
      simp only [Fsys.lookupE]
      rw [if_neg (fun he => h (by rw [← he, hq]))]
    · rw [Fsys.eraseE_cons_ne q t rest n hq]
      simp only [Fsys.lookupE]
      by_cases hqm : q = m
      · rw [if_pos hqm, if_pos hqm]
      · rw [if_neg hqm, if_neg hqm, ih]

/-- Erasing a name removes it. -/
theorem Fsys.lookupE_eraseE_self (l : List (String × Fsys)) (n : String) :
    Fsys.lookupE (Fsys.eraseE l n) n = none := by
  induction l with
  | nil => rfl
  | cons p rest ih =>
    obtain ⟨q, t⟩ := p
    by_cases hq : q = n
    · rw [Fsys.eraseE_cons_self q t rest n hq]
      exact ih
    · rw [Fsys.eraseE_cons_ne q t rest n hq]
      simp only [Fsys.lookupE]
      rw [if_neg hq]
      exact ih

/-! ### C4: which restore paths remove the applying flag -/

/-- The restore loop never touches root entries whose names are not among the
backup items. -/
theorem Firmware.restoreItems_frame (items : List (String × Fsys)) (cf : Option String)
    (root : List (String × Fsys)) (m : String) (hm : m ∉ items.map Prod.fst) :
    Fsys.lookupE (Firmware.restoreItems items cf root).2 m = Fsys.lookupE root m := by
  induction items generalizing root with
  | nil => rfl
  | cons p rest ih =>
    obtain ⟨n, t⟩ := p
    have hmn : ¬m = n ∧ m ∉ rest.map Prod.fst := by
      simp only [List.map_cons, List.mem_cons, not_or] at hm
      exact hm
    rw [Firmware.restoreItems]
    by_cases hc : cf = some n
    · rw [if_pos hc]
      exact Fsys.lookupE_eraseE_ne root n m hmn.1
    · rw [if_neg hc]
      rw [ih _ hmn.2, Fsys.lookupE_setE_ne _ n t m hmn.1,
        Fsys.lookupE_eraseE_ne root n m hmn.1]

/-- Counterexample to C4 as stated: invoked with no backup directory on disk,
`restore_from_backup` returns `False` leaving the filesystem — including the
`__applying` flag file — untouched, so this invocation does not remove the
applying flag. -/
theorem C4_flag_removal_counterexample :
    Firmware.restoreFromBackup ⟨false, none, false⟩ [("__applying", Fsys.file "")] =
      (false, [("__applying", Fsys.file "")]) ∧
    Fsys.lookupE [("__applying", Fsys.file "")] "__applying" = some (Fsys.file "") :=
  ⟨rfl, rfl⟩

/-- Claim C4 as amended: `restore_from_backup` removes the applying flag on
the success path and on the unanticipated-exception path (including a
non-directory `/backup`), but returns *without* removing it when the backup
directory probe fails, when `/backup` is absent, when the backup is empty, and
when an item copy fails. -/
theorem C4_flag_removal (env : Firmware.RestoreEnv) (root : List (String × Fsys)) :
    ((Firmware.restoreFromBackup env root).1 = true →
      Fsys.lookupE (Firmware.restoreFromBackup env root).2 "__applying" = none) ∧
    (env.listdirErr = true → Firmware.restoreFromBackup env root = (false, root)) ∧
    (env.listdirErr = false → Fsys.lookupE root "backup" = none →
      Firmware.restoreFromBackup env root = (false, root)) ∧
    (env.listdirErr = false → Fsys.lookupE root "backup" = some (Fsys.dir []) →
      Firmware.restoreFromBackup env root = (false, root)) ∧
    (∀ bes, env.listdirErr = false → env.genericErr = true →
      Fsys.lookupE root "backup" = some (Fsys.dir bes) → bes ≠ [] →
      Firmware.restoreFromBackup env root = (false, Fsys.eraseE root "__applying")) ∧
    (∀ bes r, env.listdirErr = false → env.genericErr = false →
      Fsys.lookupE root "backup" = some (Fsys.dir bes) → bes ≠ [] →
      Firmware.restoreItems bes env.copyFail root = (false, r) →
      "__applying" ∉ bes.map Prod.fst →
      (Firmware.restoreFromBackup env root).1 = false ∧
      Fsys.lookupE (Firmware.restoreFromBackup env root).2 "__applying" =
        Fsys.lookupE root "__applying") := by
  refine ⟨?_, ?_, ?_, ?_, ?_, ?_⟩
  · intro h
    by_cases he : env.listdirErr = true
    · have hout : Firmware.restoreFromBackup env root = (false, root) := by
        unfold Firmware.restoreFromBackup
        rw [if_pos he]
      rw [hout] at h
      simp at h
    · cases hb : Fsys.lookupE root "backup" with
      | none =>
        have hout : Firmware.restoreFromBackup env root = (false, root) := by
          unfold Firmware.restoreFromBackup
          rw [if_neg he, hb]
        rw [hout] at h
        simp at h
      | some d =>
        cases d with
        | file a =>
          have hout : Firmware.restoreFromBackup env root =
              (false, Fsys.eraseE root "__applying") := by
            unfold Firmware.restoreFromBackup
            rw [if_neg he, hb]
          rw [hout] at h
          simp at h
        | dir bes =>
          cases bes with
          | nil =>
            have hout : Firmware.restoreFromBackup env root = (false, root) := by
              unfold Firmware.restoreFromBackup
              rw [if_neg he, hb]
              rfl
            rw [hout] at h
            simp at h
          | cons p rest =>
            by_cases hg : env.genericErr = true
            · have hout : Firmware.restoreFromBackup env root =
                  (false, Fsys.eraseE root "__applying") := by
                unfold Firmware.restoreFromBackup
                rw [if_neg he, hb]
                simp [hg]
              rw [hout] at h
              simp at h
            · cases hr : Firmware.restoreItems (p :: rest) env.copyFail root with
              | mk ok r =>
                cases ok with
                | false =>
                  have hout : Firmware.restoreFromBackup env root = (false, r) := by
                    unfold Firmware.restoreFromBackup
                    rw [if_neg he, hb]
                    simp [hg, hr]
                  rw [hout] at h
                  simp at h
                | true =>
                  have hout : Firmware.restoreFromBackup env root =
                      (true, Fsys.eraseE r "__applying") := by
                    unfold Firmware.restoreFromBackup
                    rw [if_neg he, hb]
                    simp [hg, hr]
                  rw [hout]
                  exact Fsys.lookupE_eraseE_self r "__applying"
  · intro he
    unfold Firmware.restoreFromBackup
    rw [if_pos he]
  · intro he hb
    unfold Firmware.restoreFromBackup
    rw [if_neg (by rw [he]; simp), hb]
  · intro he hb
    unfold Firmware.restoreFromBackup
    rw [if_neg (by rw [he]; simp), hb]
    rfl
  · intro bes he hg hb hne
    unfold Firmware.restoreFromBackup
    rw [if_neg (by rw [he]; simp), hb]
    cases bes with
    | nil => exact absurd rfl hne
    | cons p rest => simp [hg]
  · intro bes r he hg hb hne hr hflag
    have hout : Firmware.restoreFromBackup env root = (false, r) := by
      unfold Firmware.restoreFromBackup
      rw [if_neg (by rw [he]; simp), hb]
      cases bes with
      | nil => exact absurd rfl hne
      | cons p rest => simp [hg, hr]
    rw [hout]
    refine ⟨rfl, ?_⟩
    have hfr := Firmware.restoreItems_frame bes env.copyFail root "__applying" hflag
    rw [hr] at hfr
    exact hfr

/-- Witness for C4 (amended): a copy failure leaves the applying flag in
place; a clean run removes it. -/
theorem C4_flag_removal_witness :
    ((Firmware.restoreFromBackup ⟨false, some "main.py", false⟩ restoreRootW).1 = false ∧
      Fsys.lookupE (Firmware.restoreFromBackup ⟨false, some "main.py", false⟩ restoreRootW).2
          "__applying" =
        Fsys.lookupE restoreRootW "__applying") ∧
    Fsys.lookupE (Firmware.restoreFromBackup ⟨false, none, false⟩ restoreRootW).2
        "__applying" = none := by
  constructor
  · exact (C4_flag_removal ⟨false, some "main.py", false⟩ restoreRootW).2.2.2.2.2
      [("main.py", Fsys.file "old")] (Fsys.eraseE restoreRootW "main.py")
      rfl rfl rfl (by simp) rfl (by simp)
  · exact (C4_flag_removal ⟨false, none, false⟩ restoreRootW).1 rfl

/-! ### C1: root untouched on early failure of apply_update -/

/-- Temp-file cleanup only touches the three temporary names. -/
theorem Firmware.lookupE_cleanupTemp (a b : Bool) (r : List (String × Fsys)) (name : String)
    (h1 : name ≠ "update.tmp.tar") (h2 : name ≠ "update") (h3 : name ≠ "update.tar.zlib") :
    Fsys.lookupE (Firmware.cleanupTemp a b r) name = Fsys.lookupE r name := by
  unfold Firmware.cleanupTemp
  cases a <;> cases b <;>
    simp [Fsys.lookupE_eraseE_ne, h1, h2, h3]

/-- Claim C1: when `apply_update` returns failure at any stage before the
root merge (archive check, decompression, extraction/verification, core-files
check, backup, applying-flag creation), every root entry outside the staging
directory, the backup directory and the fixed temporary/flag files is exactly
as it was on entry. -/
theorem C1_root_untouched_before_commit
    (env : Firmware.ApplyEnv) (cores : List String) (pv : Option String)
    (root : List (String × Fsys)) (s : Firmware.ApplyStage)
    (hfail : (Firmware.applyUpdate env cores pv root).failedAt = some s)
    (hs : s ≠ Firmware.ApplyStage.merge)
    (name : String) (hname : name ∉ Firmware.workingNames) :
    Fsys.lookupE (Firmware.applyUpdate env cores pv root).fs name = Fsys.lookupE root name := by
  have hn : ¬name = "update" ∧ ¬name = "backup" ∧ ¬name = "update.tar.zlib" ∧
      ¬name = "update.tmp.tar" ∧ ¬name = "__applying" ∧ ¬name = "__updating" := by
    simp only [Firmware.workingNames, List.mem_cons, List.not_mem_nil, or_false,
      not_or] at hname
    exact hname
  obtain ⟨h1, h2, h3, h4, h5, h6⟩ := hn
  cases hA : env.archiveStatErr with
  | true =>
    have hout : Firmware.applyUpdate env cores pv root =
        ⟨false, some Firmware.ApplyStage.archive, root, false⟩ := by
      unfold Firmware.applyUpdate
      rw [hA]
      rfl
    rw [hout]
  | false =>
  cases hAr : (Fsys.lookupE root "update.tar.zlib").isNone with
  | true =>
    have hout : Firmware.applyUpdate env cores pv root =
        ⟨false, some Firmware.ApplyStage.archive, root, false⟩ := by
      unfold Firmware.applyUpdate
      rw [hA, hAr]
      rfl
    rw [hout]
  | false =>
  cases hD : env.decompOk with
  | false =>
    have hout : Firmware.applyUpdate env cores pv root =
        ⟨false, some Firmware.ApplyStage.decompress,
          Firmware.cleanupTemp false false
            (Fsys.setE root "update.tmp.tar" (Fsys.file env.tarData)), false⟩ := by
      unfold Firmware.applyUpdate
      rw [hA, hAr, hD]
      rfl
    rw [hout]
    simp [Firmware.lookupE_cleanupTemp, Fsys.lookupE_setE_ne, h1, h2, h3, h4]
  | true =>
  cases hE : env.extractOk with
  | false =>
    have hout : Firmware.applyUpdate env cores pv root =
        ⟨false, some Firmware.ApplyStage.extract,
          Firmware.cleanupTemp true false
            (Fsys.setE (Fsys.setE root "update.tmp.tar" (Fsys.file env.tarData)) "update"
              (Fsys.dir env.stagingEntries)), false⟩ := by
      unfold Firmware.applyUpdate
      rw [hA, hAr, hD, hE]
      rfl
    rw [hout]
    simp [Firmware.lookupE_cleanupTemp, Fsys.lookupE_setE_ne, h1, h2, h3, h4]
  | true =>
  cases hC : (!cores.isEmpty &&
      (env.coreStatErr || !Firmware.coreFilesOk cores env.stagingEntries)) with
  | true =>
    have hout : Firmware.applyUpdate env cores pv root =
        ⟨false, some Firmware.ApplyStage.core,
          Firmware.cleanupTemp true false
            (Fsys.setE (Fsys.setE root "update.tmp.tar" (Fsys.file env.tarData)) "update"
              (Fsys.dir env.stagingEntries)), false⟩ := by
      unfold Firmware.applyUpdate
      rw [hA, hAr, hD, hE, hC]
      rfl
    rw [hout]
    simp [Firmware.lookupE_cleanupTemp, Fsys.lookupE_setE_ne, h1, h2, h3, h4]
  | false =>
  cases hB : env.backupOk with
  | false =>
    have hout : Firmware.applyUpdate env cores pv root =
        ⟨false, some Firmware.ApplyStage.backup,
          Firmware.cleanupTemp true false
            (Fsys.setE
              (Fsys.setE (Fsys.setE root "update.tmp.tar" (Fsys.file env.tarData)) "update"
                (Fsys.dir env.stagingEntries)) "backup" (Fsys.dir env.partialBackup)),
          false⟩ := by
      unfold Firmware.applyUpdate
      rw [hA, hAr, hD, hE, hC, hB]
      rfl
    rw [hout]
    simp [Firmware.lookupE_cleanupTemp, Fsys.lookupE_setE_ne, h1, h2, h3, h4]
  | true =>
  cases hF : env.flagOk with
  | false =>
    have hout : Firmware.applyUpdate env cores pv root =
        ⟨false, some Firmware.ApplyStage.flag,
          Firmware.cleanupTemp true false
            (Fsys.setE
              (Fsys.setE (Fsys.setE root "update.tmp.tar" (Fsys.file env.tarData)) "update"
                (Fsys.dir env.stagingEntries)) "backup"
              (Fsys.overlayFs
                (Fsys.dir (Firmware.backupContent
                  (Fsys.setE (Fsys.setE root "update.tmp.tar" (Fsys.file env.tarData)) "update"
                    (Fsys.dir env.stagingEntries))))
                (Firmware.oldBackupDir
                  (Fsys.setE (Fsys.setE root "update.tmp.tar" (Fsys.file env.tarData)) "update"
                    (Fsys.dir env.stagingEntries))))),
          false⟩ := by
      unfold Firmware.applyUpdate
      rw [hA, hAr, hD, hE, hC, hB, hF]
      rfl
    rw [hout]
    simp [Firmware.lookupE_cleanupTemp, Fsys.lookupE_setE_ne, h1, h2, h3, h4]
  | true =>
  cases hM : env.mergeOk with
  | false =>
    exfalso
    apply hs
    have hout : (Firmware.applyUpdate env cores pv root).failedAt =
        some Firmware.ApplyStage.merge := by
      unfold Firmware.applyUpdate
      rw [hA, hAr, hD, hE, hC, hB, hF, hM]
      rfl
    rw [hout] at hfail
    exact (Option.some.inj hfail).symm
  | true =>
    exfalso
    have hout : (Firmware.applyUpdate env cores pv root).failedAt = none := by
      unfold Firmware.applyUpdate
      rw [hA, hAr, hD, hE, hC, hB, hF, hM]
      rfl
    rw [hout] at hfail
    exact Option.noConfusion hfail

/-- Witness for C1: with failing decompression, the user file `main.py` is
untouched. -/
theorem C1_root_untouched_witness :
    (Firmware.applyUpdate applyEnvDecompFail [] none
        [("update.tar.zlib", Fsys.file "z"), ("main.py", Fsys.file "v1")]).failedAt =
      some Firmware.ApplyStage.decompress ∧
    Fsys.lookupE
        (Firmware.applyUpdate applyEnvDecompFail [] none
          [("update.tar.zlib", Fsys.file "z"), ("main.py", Fsys.file "v1")]).fs "main.py" =
      Fsys.lookupE [("update.tar.zlib", Fsys.file "z"), ("main.py", Fsys.file "v1")] "main.py" :=
  ⟨rfl,
    C1_root_untouched_before_commit applyEnvDecompFail [] none
      [("update.tar.zlib", Fsys.file "z"), ("main.py", Fsys.file "v1")]
      Firmware.ApplyStage.decompress rfl (by decide) "main.py" (by decide)⟩

/-! ### C3: merge failure triggers an inline rollback -/

/-- Every `apply_update` run either fails at some stage — with the restore
flag set exactly on a merge-stage failure — or succeeds. -/
theorem Firmware.applyUpdate_shape (env : Firmware.ApplyEnv) (cores : List String)
    (pv : Option String) (root : List (String × Fsys)) :
    (∃ s fs, Firmware.applyUpdate env cores pv root =
        ⟨false, some s, fs, decide (s = Firmware.ApplyStage.merge)⟩) ∨
    (∃ fs, Firmware.applyUpdate env cores pv root = ⟨true, none, fs, false⟩) := by
  unfold Firmware.applyUpdate
  by_cases hA : env.archiveStatErr = true
  · rw [if_pos hA]
    exact Or.inl ⟨Firmware.ApplyStage.archive, root, rfl⟩
  rw [if_neg hA]
  by_cases hAr : (Fsys.lookupE root "update.tar.zlib").isNone = true
  · rw [if_pos hAr]
    exact Or.inl ⟨Firmware.ApplyStage.archive, root, rfl⟩
  rw [if_neg hAr]
  cases hD : env.decompOk with
  | false => exact Or.inl ⟨Firmware.ApplyStage.decompress, _, rfl⟩
  | true =>
  cases hE : env.extractOk with
  | false => exact Or.inl ⟨Firmware.ApplyStage.extract, _, rfl⟩
  | true =>
  by_cases hC : (!cores.isEmpty &&
      (env.coreStatErr || !Firmware.coreFilesOk cores env.stagingEntries)) = true
  · rw [hC]
    exact Or.inl ⟨Firmware.ApplyStage.core, _, rfl⟩
  rw [show (!cores.isEmpty &&
      (env.coreStatErr || !Firmware.coreFilesOk cores env.stagingEntries)) = false from
    by revert hC; cases (!cores.isEmpty &&
      (env.coreStatErr || !Firmware.coreFilesOk cores env.stagingEntries)) <;> simp]
  cases hB : env.backupOk with
  | false => exact Or.inl ⟨Firmware.ApplyStage.backup, _, rfl⟩
  | true =>
  cases hF : env.flagOk with
  | false => exact Or.inl ⟨Firmware.ApplyStage.flag, _, rfl⟩
  | true =>
  cases hM : env.mergeOk with
  | false => exact Or.inl ⟨Firmware.ApplyStage.merge, _, rfl⟩
  | true =>
  cases pv with
  | some v =>
    cases hV : env.versionWriteOk with
    | false => exact Or.inr ⟨_, rfl⟩
    | true => exact Or.inr ⟨_, rfl⟩
  | none => exact Or.inr ⟨_, rfl⟩

/-- Counterexample to C3 as stated: when the merge fails, `apply_update`
performs `restore_from_backup` in the same run (source lines 903-907), rather
than deferring rollback to the next boot. -/
theorem C3_no_inline_rollback_counterexample :
    (Firmware.applyUpdate applyEnvMergeFail [] none
        [("update.tar.zlib", Fsys.file "z"), ("main.py", Fsys.file "old")]).failedAt =
      some Firmware.ApplyStage.merge ∧
    (Firmware.applyUpdate applyEnvMergeFail [] none
        [("update.tar.zlib", Fsys.file "z"), ("main.py", Fsys.file "old")]).restored = true :=
  ⟨rfl, rfl⟩

/-- Claim C3 as amended: a mid-merge failure is reported (`apply_update`
returns failure at the merge stage) and `restore_from_backup` *is* invoked
inline in the same run — and that is the only `apply_update` path that invokes
it; independently, the boot-time `applying_flag` check also routes to restore
on the next boot. -/
theorem C3_inline_rollback (env : Firmware.ApplyEnv) (cores : List String)
    (pv : Option String) (root : List (String × Fsys)) :
    ((Firmware.applyUpdate env cores pv root).restored = true ↔
      (Firmware.applyUpdate env cores pv root).failedAt = some Firmware.ApplyStage.merge) ∧
    ((Firmware.applyUpdate env cores pv root).failedAt = some Firmware.ApplyStage.merge →
      (Firmware.applyUpdate env cores pv root).ok = false) ∧
    (∀ e : BootEnv, e.applyingFlagPresent = true → e.initOk = true →
      BootAction.restore ∈ bootTrace e) := by
  refine ⟨?_, ?_, ?_⟩
  · obtain ⟨s, fs, hout⟩ | ⟨fs, hout⟩ := Firmware.applyUpdate_shape env cores pv root
    · rw [hout]
      simp
    · rw [hout]
      simp
  · obtain ⟨s, fs, hout⟩ | ⟨fs, hout⟩ := Firmware.applyUpdate_shape env cores pv root
    · rw [hout]
      intro _
      rfl
    · rw [hout]
      intro hc
      simp at hc
  · intro e he hi
    unfold bootTrace
    rw [if_pos he, hi]
    simp

/-- Witness for C3 (amended): a concrete merge failure restores inline, and a
boot with the applying flag routes to restore. -/
theorem C3_inline_rollback_witness :
    (Firmware.applyUpdate applyEnvMergeFailW [] none
        [("update.tar.zlib", Fsys.file "z"), ("cfg.json", Fsys.file "old")]).restored = true ∧
    BootAction.restore ∈ bootTrace ⟨true, true, none, true, true, false, false, true, true, true⟩ := by
  have h := C3_inline_rollback applyEnvMergeFailW [] none
    [("update.tar.zlib", Fsys.file "z"), ("cfg.json", Fsys.file "old")]
  exact ⟨h.1.2 rfl, h.2.2 ⟨true, true, none, true, true, false, false, true, true, true⟩ rfl rfl⟩

/-! ### C5: hash verification of extracted entries -/

/-- Counterexample to C5 as stated: the digest of the bytes "abc" is
`ba7816...ad`; a manifest entry giving the same digest in uppercase hex is
*case-insensitively* equal to the computed digest, so per the claim the entry
must pass — but `_process_tar_entry` compares the hex strings with exact
string inequality (`computed_hash != expected_hash`) and flags an integrity
error, failing the extraction. -/
theorem C5_hash_gate_counterexample :
    Firmware.lowerStr (Firmware.sha256hex [97, 98, 99]) =
      Firmware.lowerStr "BA7816BF8F01CFEA414140DE5DAE2223B00361A396177A9CB410FF61F20015AD" ∧
    Firmware.processTarEntry
        [("boot.py", "BA7816BF8F01CFEA414140DE5DAE2223B00361A396177A9CB410FF61F20015AD")]
        ⟨"boot.py", false, [97, 98, 99]⟩ = (true, true) ∧
    Firmware.extractFirmware
        [("boot.py", "BA7816BF8F01CFEA414140DE5DAE2223B00361A396177A9CB410FF61F20015AD")]
        [⟨"integrity.json", false, []⟩, ⟨"boot.py", false, [97, 98, 99]⟩] = false := by
  refine ⟨by decide, by decide, by decide⟩

/-- Claim C5 as amended: for a non-manifest file entry with a safe name, if
`hash_sums` is nonempty and contains an entry for the path, the entry is
processed with an error exactly when the computed lowercase hex digest
differs from the expected digest *as exact strings* (the comparison is
case-sensitive); if `hash_sums` has no entry for the path the file is
extracted and never rejected; and any entry error makes the extraction stage
fail. -/
theorem C5_hash_gate (hs : List (String × String)) (e : Firmware.TarEntry)
    (hsafe : Firmware.unsafeTarName e.name = false) (hfile : e.isDir = false)
    (hnm : e.name ≠ "integrity.json") (hne : hs ≠ []) :
    (∀ expected, Firmware.lookupHash hs e.name = some expected →
      Firmware.processTarEntry hs e =
        (true, !(Firmware.sha256hex e.data = expected : Bool))) ∧
    (Firmware.lookupHash hs e.name = none →
      Firmware.processTarEntry hs e = (true, false)) ∧
    (∀ manifest entries,
      (entries.foldl (Firmware.extractStep manifest) (0, 0, [])).2.1 ≠ 0 →
      Firmware.extractFirmware manifest entries = false) := by
  have hred : ∀ z : Bool × Bool,
      (if Firmware.unsafeTarName e.name = true then (false, false)
        else if e.isDir = true then (true, false)
        else if e.name = "integrity.json" then (true, false)
        else z) = z := by
    intro z
    rw [hsafe, hfile]
    simp only [Bool.false_eq_true, if_false, if_neg hnm]
  have hemp : hs.isEmpty = false := by
    cases hs with
    | nil => exact absurd rfl hne
    | cons p rest => rfl
  refine ⟨?_, ?_, ?_⟩
  · intro expected hl
    unfold Firmware.processTarEntry
    rw [hred, hemp]
    simp only [Bool.false_eq_true, if_false, hl]
    by_cases hx : Firmware.sha256hex e.data = expected
    · rw [if_neg (fun hc => hc hx), hx]
      simp
    · rw [if_pos hx]
      simp [hx]
  · intro hl
    unfold Firmware.processTarEntry
    rw [hred, hemp]
    simp only [Bool.false_eq_true, if_false, hl]
  · intro manifest entries hec
    unfold Firmware.extractFirmware
    cases hacc : entries.foldl (Firmware.extractStep manifest) (0, 0, []) with
    | mk pc rest =>
      rw [hacc] at hec
      obtain ⟨ec, m⟩ := rest
      simp only at hec
      simp [hec]

/-- Witness for C5 (amended): a correct lowercase manifest digest for "abc"
passes; a wrong digest is flagged; an unlisted file passes unverified. -/
theorem C5_hash_gate_witness :
    Firmware.processTarEntry
        [("boot.py", "ba7816bf8f01cfea414140de5dae2223b00361a396177a9cb410ff61f20015ad")]
        ⟨"boot.py", false, [97, 98, 99]⟩ = (true, false) ∧
    Firmware.processTarEntry
        [("boot.py", "0000000000000000000000000000000000000000000000000000000000000000")]
        ⟨"boot.py", false, [97, 98, 99]⟩ = (true, true) ∧
    Firmware.processTarEntry
        [("other.py", "ba7816bf8f01cfea414140de5dae2223b00361a396177a9cb410ff61f20015ad")]
        ⟨"boot.py", false, [97, 98, 99]⟩ = (true, false) := by
  refine ⟨?_, ?_, ?_⟩
  · have h := (C5_hash_gate
      [("boot.py", "ba7816bf8f01cfea414140de5dae2223b00361a396177a9cb410ff61f20015ad")]
      ⟨"boot.py", false, [97, 98, 99]⟩ (by decide) rfl (by decide) (by decide)).1
      "ba7816bf8f01cfea414140de5dae2223b00361a396177a9cb410ff61f20015ad" rfl
    rw [h]
    decide
  · have h := (C5_hash_gate
      [("boot.py", "0000000000000000000000000000000000000000000000000000000000000000")]
      ⟨"boot.py", false, [97, 98, 99]⟩ (by decide) rfl (by decide) (by decide)).1
      "0000000000000000000000000000000000000000000000000000000000000000" rfl
    rw [h]
    decide
  · exact (C5_hash_gate
      [("other.py", "ba7816bf8f01cfea414140de5dae2223b00361a396177a9cb410ff61f20015ad")]
      ⟨"boot.py", false, [97, 98, 99]⟩ (by decide) rfl (by decide) (by decide)).2.1 rfl
